import Mathlib

/-!
# Verification of the PSP homebrew archive scraper

A shallow embedding of `src/scraper.py` (class `PSPHomebrewScraper`).

Network effects are modelled by oracles: the search API response is an
`Option (List SearchDoc)` (`none` = any network/timeout/parse error during
the request), and the per-item metadata API is a function
`String → Option MetaResponse` (`none` = any error while fetching that
identifier's metadata, which the Python code catches in
`get_item_details`).

Python values that may be either a single string or a list of strings
(`subject`, `keywords`) are modelled by `StrOrList`; a missing key is an
`Option.none` at the field.  All functions are direct translations of the
Python source, loop for loop.
-/

namespace Scraper

/-- A `subject` / `keywords` metadata value: either one string or a list
of strings, mirroring the `isinstance(x, str)` normalisation in the
Python code. -/
inductive StrOrList where
  | str (s : String)
  | list (l : List String)
deriving Repr, DecidableEq

/-- The Python normalisation `if isinstance(x, str): x = [x]`. -/
def StrOrList.toList : StrOrList → List String
  | .str s => [s]
  | .list l => l

/-- The `metadata` sub-object of a metadata API response: the fields the
scraper reads, each possibly absent. -/
structure MetaFields where
  title : Option String
  subject : Option StrOrList
  keywords : Option StrOrList
deriving Repr, DecidableEq

/-- One entry of the `files` list; `name` may be absent
(`file.get('name', '')` then yields the empty string). -/
structure FileEntry where
  name : Option String
deriving Repr, DecidableEq

/-- `file.get('name', '')`. -/
def FileEntry.getName (f : FileEntry) : String := f.name.getD ""

/-- A metadata API response: `metadata` sub-object (possibly absent,
`metadata.get('metadata', {})`) and the `files` list
(`metadata.get('files', [])`). -/
structure MetaResponse where
  metadata : Option MetaFields
  files : List FileEntry
deriving Repr, DecidableEq

/-- `metadata.get('metadata', {}).get('subject', [])`, followed by the
string-to-singleton-list normalisation. -/
def getSubject (m : MetaResponse) : List String :=
  match m.metadata with
  | none => []
  | some mf =>
    match mf.subject with
    | none => []
    | some s => s.toList

/-- `meta.get('keywords', [])`, followed by the same normalisation. -/
def getKeywords (m : MetaResponse) : List String :=
  match m.metadata with
  | none => []
  | some mf =>
    match mf.keywords with
    | none => []
    | some k => k.toList

/-- `metadata.get('metadata', {}).get('title', '')`. -/
def getTitle (m : MetaResponse) : String :=
  match m.metadata with
  | none => ""
  | some mf => mf.title.getD ""

/-- `self.base_url`. -/
def base_url : String := "https://archive.org"

/-- The detail-page URL `f"{self.base_url}/details/{identifier}"`. -/
def itemUrl (identifier : String) : String :=
  base_url ++ "/details/" ++ identifier

/-- The download URL
`f"{self.base_url}/download/{identifier}/{filename}"`. -/
def dlUrl (identifier filename : String) : String :=
  base_url ++ "/download/" ++ identifier ++ "/" ++ filename

/-- Python `str.lower()`, modelled character-wise (ASCII case folding
suffices for the extensions and keywords involved). -/
def pyLower (s : String) : String := ⟨s.toList.map Char.toLower⟩

/-- Python `str.endswith(suffix)`. -/
def pyEndsWith (s suffix : String) : Bool :=
  suffix.toList.isSuffixOf s.toList

/-- Python `str.strip()`: remove leading and trailing whitespace. -/
def pyStrip (s : String) : String :=
  ⟨(((s.toList.dropWhile Char.isWhitespace).reverse.dropWhile
      Char.isWhitespace).reverse)⟩

/-- `filename.lower().endswith('.zip')`. -/
def hasZipSuffix (filename : String) : Bool :=
  pyEndsWith (pyLower filename) ".zip"

/-- `filename.lower().endswith(('.rar', '.7z', '.pbp'))` — Python's
tuple form of `endswith` is a single combined test, true when any of the
three suffixes matches. -/
def hasAltSuffix (filename : String) : Bool :=
  pyEndsWith (pyLower filename) ".rar" || pyEndsWith (pyLower filename) ".7z"
    || pyEndsWith (pyLower filename) ".pbp"

/-- The `for file in files: ... break` scan in `get_item_details`: the
name of the first file whose `name` (default `''`) satisfies `p`. -/
def findFile (p : String → Bool) : List FileEntry → Option String
  | [] => none
  | f :: rest =>
    let filename := f.getName
    if p filename then some filename else findFile p rest

/-- An Item Record, the dictionary built by `get_item_details`. -/
structure ItemData where
  identifier : String
  title : String
  category : String
  tags : List String
  download_url : Option String
  url : String
deriving Repr, DecidableEq

/-- The fixed category keyword list of `extract_category`, in priority
order. -/
def categories : List String :=
  ["Games", "Emulators", "Applications", "Utilities",
   "Media", "Demos", "Plugins", "Themes"]

/-- Python's substring operator `needle in hay` on character lists:
`needle` occurs contiguously in `hay` (the empty needle always
occurs). -/
def containsSub (needle : List Char) : List Char → Bool
  | [] => needle.isEmpty
  | c :: rest => needle.isPrefixOf (c :: rest) || containsSub needle rest

/-- `cat.lower() in str(subj).lower()` — case-insensitive substring
test. -/
def catMatches (cat subj : String) : Bool :=
  containsSub (pyLower cat).toList (pyLower subj).toList

/-- The nested `for cat in categories: for subj in subject:` loops of
`extract_category`: the first keyword (in priority order) contained
case-insensitively in some subject entry. -/
def findCat : List String → List String → Option String
  | [], _ => none
  | cat :: rest, subject =>
    if subject.any (fun subj => catMatches cat subj) then some cat
    else findCat rest subject

/-- `extract_category`. -/
def extract_category (m : MetaResponse) : String :=
  let subject := getSubject m
  match findCat categories subject with
  | some cat => cat
  | none =>
    match subject with
    | [] => "Unknown"
    | s :: _ => s

/-- `extract_tags`: concatenate the normalised `subject` and `keywords`
lists, keep the truthy (non-empty) entries, strip each, and deduplicate
via `list(set(...))`.  Python's set iteration order is unspecified; the
embedding uses `List.dedup` as a canonical representative, and the
theorems below only use the result's set semantics. -/
def extract_tags (m : MetaResponse) : List String :=
  let tags := getSubject m ++ getKeywords m
  (((tags.filter (fun tag => tag ≠ "")).map pyStrip)).dedup

/-- `get_item_details`, with the metadata API modelled by `fetch`:
`fetch identifier = none` models any caught exception (network, timeout,
or parse error), in which case the Python function returns `None`. -/
def get_item_details (fetch : String → Option MetaResponse)
    (identifier : String) : Option ItemData :=
  match fetch identifier with
  | none => none
  | some metadata =>
    let du :=
      match findFile hasZipSuffix metadata.files with
      | some filename => some (dlUrl identifier filename)
      | none =>
        match findFile hasAltSuffix metadata.files with
        | some filename => some (dlUrl identifier filename)
        | none => none
    some
      { identifier := identifier
        title := getTitle metadata
        category := extract_category metadata
        tags := extract_tags metadata
        download_url := du
        url := itemUrl identifier }

/-- A document of the search API response; `identifier` is `none` when
the `'identifier'` key is missing (then `item['identifier']` raises
`KeyError`). -/
structure SearchDoc where
  identifier : Option String
deriving Repr, DecidableEq

/-- The list comprehension `[item['identifier'] for item in items]`:
`none` models the `KeyError` raised at the first document without an
`identifier` key. -/
def collectIdentifiers : List SearchDoc → Option (List String)
  | [] => some []
  | d :: rest =>
    match d.identifier with
    | none => none
    | some i =>
      match collectIdentifiers rest with
      | none => none
      | some rest' => some (i :: rest')

/-- `get_collection_items`, with the search API response modelled by
`search : Option (List SearchDoc)`: `none` models any caught exception
during the request or JSON parse.  A `KeyError` from the comprehension
is caught by the same `except` handler, so the whole call returns
`[]`. -/
def get_collection_items (search : Option (List SearchDoc)) : List String :=
  match search with
  | none => []
  | some docs =>
    match collectIdentifiers docs with
    | some identifiers => identifiers
    | none => []

/-- Python truthiness of `item_data['download_url']`: `None` and the
empty string are falsy. -/
def pyTruthyOpt : Option String → Bool
  | none => false
  | some s => s ≠ ""

/-- The `for idx, identifier in enumerate(identifiers, 1):` loop of
`scrape_all`: append the record when
`item_data and item_data['download_url']` is truthy. -/
def scrapeLoop (fetch : String → Option MetaResponse) :
    List String → List ItemData
  | [] => []
  | identifier :: rest =>
    match get_item_details fetch identifier with
    | some item_data =>
      if pyTruthyOpt item_data.download_url then
        item_data :: scrapeLoop fetch rest
      else
        scrapeLoop fetch rest
    | none => scrapeLoop fetch rest

/-- `scrape_all`: enumerate the collection, then fetch each identifier
in order. -/
def scrape_all (search : Option (List SearchDoc))
    (fetch : String → Option MetaResponse) : List ItemData :=
  scrapeLoop fetch (get_collection_items search)

/-- The JSON envelope written by `save_to_json`; the timestamp string is
passed in (the code formats the current UTC time). -/
structure Catalog where
  total_items : Nat
  scraped_at : String
  items : List ItemData
deriving Repr, DecidableEq

/-- `save_to_json`: build the serialized envelope. -/
def save_to_json (data : List ItemData) (scraped_at : String) : Catalog :=
  { total_items := data.length
    scraped_at := scraped_at
    items := data }

/-! ## Spec-side definition for the category refinement claim -/

/-- The category-extraction algorithm as worded by the spec: normalize
the subject field to a list, return the first of the eight keywords (in
priority order) occurring case-insensitively as a substring of any
subject entry; otherwise the first raw subject string; otherwise
`"Unknown"`. -/
def extract_category_ofSpec (m : MetaResponse) : String :=
  let subject := getSubject m
  match categories.find?
      (fun cat => subject.any (fun subj => catMatches cat subj)) with
  | some cat => cat
  | none => subject.head?.getD "Unknown"

/-! ## Concrete fixtures -/

/-- A metadata response whose file list mixes a `.txt`, `.rar` and
`.pbp` around two `.zip` files (first one upper-case). -/
def zipResp : MetaResponse :=
  ⟨some ⟨some "Zip Item", none, none⟩,
   [⟨some "readme.txt"⟩, ⟨some "Game.RAR"⟩, ⟨some "EBOOT.PBP"⟩,
    ⟨some "Game.ZIP"⟩, ⟨some "extra.zip"⟩]⟩

/-- A metadata oracle resolving only `"zipitem"`. -/
def zipFetch : String → Option MetaResponse := fun i =>
  if i = "zipitem" then some zipResp else none

/-- A metadata response with no `.zip` file but a `.pbp`, a `.rar` and a
`.7z`, in that order. -/
def altResp : MetaResponse :=
  ⟨some ⟨some "Alt Item", none, none⟩,
   [⟨some "notes.txt"⟩, ⟨some "X.PBP"⟩, ⟨some "y.rar"⟩, ⟨some "z.7z"⟩]⟩

/-- A metadata oracle resolving only `"altitem"`. -/
def altFetch : String → Option MetaResponse := fun i =>
  if i = "altitem" then some altResp else none

/-- Metadata whose subject list is `["retro games", "Emulators"]`. -/
def retroMeta : MetaResponse :=
  ⟨some ⟨none, some (.list ["retro games", "Emulators"]), none⟩, []⟩

/-- Metadata with subjects `["Action", "action "]` and keywords
`["Action"]`. -/
def dedupMeta : MetaResponse :=
  ⟨some ⟨none, some (.list ["Action", "action "]),
    some (.list ["Action"])⟩, []⟩

/-- Metadata whose single subject entry is one space character. -/
def wsMeta : MetaResponse :=
  ⟨some ⟨none, some (.list [" "]), none⟩, []⟩

/-- Metadata whose subject is the single string `"Unknown"`. -/
def unknownMeta : MetaResponse :=
  ⟨some ⟨none, some (.str "Unknown"), none⟩, []⟩

/-- A metadata response with only a `.txt` file, so no download URL can
be selected. -/
def noextResp : MetaResponse :=
  ⟨some ⟨some "No Ext", none, none⟩, [⟨some "readme.txt"⟩]⟩

/-- Search response for the filtering scenario: two documents. -/
def search5 : Option (List SearchDoc) := some [⟨some "a"⟩, ⟨some "noext"⟩]

/-- Metadata oracle for the filtering scenario: `"a"` has a `.zip`,
`"noext"` only a `.txt`. -/
def fetch5 : String → Option MetaResponse := fun i =>
  if i = "a" then some zipResp
  else if i = "noext" then some noextResp
  else none

/-- Search response for the failure-isolation scenario: three
documents. -/
def search6 : Option (List SearchDoc) :=
  some [⟨some "a"⟩, ⟨some "b"⟩, ⟨some "c"⟩]

/-- Metadata oracle for the failure-isolation scenario: `"b"` fails,
`"a"` and `"c"` succeed with eligible files. -/
def fetch6 : String → Option MetaResponse := fun i =>
  if i = "a" then some zipResp
  else if i = "c" then some altResp
  else none

/-! ## Helper lemmas -/

/-- The file-scanning loop is `List.find?` over the file names. -/
theorem findFile_eq (p : String → Bool) (files : List FileEntry) :
    findFile p files = (files.map FileEntry.getName).find? p := by
  induction files with
  | nil => rfl
  | cons f rest ih =>
    simp only [findFile, List.map_cons, List.find?]
    by_cases h : p f.getName
    · simp [h]
    · simp [h, ih]

/-- A constructed download URL is never the empty string. -/
theorem dlUrl_ne_empty (identifier filename : String) :
    dlUrl identifier filename ≠ "" := by
  intro h
  have hlen := congrArg String.length h
  simp [dlUrl, base_url, String.length_append] at hlen
  exact absurd hlen.1.1.1 (by decide)

/-- Shape of a successful `get_item_details` result. -/
theorem get_item_details_eq (fetch : String → Option MetaResponse)
    (identifier : String) (resp : MetaResponse)
    (hf : fetch identifier = some resp) :
    get_item_details fetch identifier =
      some
        { identifier := identifier
          title := getTitle resp
          category := extract_category resp
          tags := extract_tags resp
          download_url :=
            match findFile hasZipSuffix resp.files with
            | some filename => some (dlUrl identifier filename)
            | none =>
              match findFile hasAltSuffix resp.files with
              | some filename => some (dlUrl identifier filename)
              | none => none
          url := itemUrl identifier } := by
  simp [get_item_details, hf]

/-- A successful `get_item_details` result carries the queried
identifier. -/
theorem get_item_details_identifier (fetch : String → Option MetaResponse)
    (identifier : String) (d : ItemData)
    (h : get_item_details fetch identifier = some d) :
    d.identifier = identifier := by
  cases hf : fetch identifier with
  | none => simp [get_item_details, hf] at h
  | some resp =>
    rw [get_item_details_eq fetch identifier resp hf] at h
    cases h
    rfl

/-- The selected download URL is `none` or a non-empty string, so the
Python truthiness test on it agrees with `Option.isSome`. -/
theorem get_item_details_truthy (fetch : String → Option MetaResponse)
    (identifier : String) (d : ItemData)
    (h : get_item_details fetch identifier = some d) :
    pyTruthyOpt d.download_url = d.download_url.isSome := by
  cases hf : fetch identifier with
  | none => simp [get_item_details, hf] at h
  | some resp =>
    rw [get_item_details_eq fetch identifier resp hf] at h
    cases h
    simp only
    cases h1 : findFile hasZipSuffix resp.files with
    | some fn => simp [pyTruthyOpt, dlUrl_ne_empty]
    | none =>
      cases h2 : findFile hasAltSuffix resp.files with
      | some fn => simp [h1, pyTruthyOpt, dlUrl_ne_empty]
      | none => simp [h1, h2, pyTruthyOpt]

/-- The accumulation loop of `scrape_all` is a `filterMap` followed by
the truthiness filter. -/
theorem scrapeLoop_eq (fetch : String → Option MetaResponse)
    (identifiers : List String) :
    scrapeLoop fetch identifiers =
      (identifiers.filterMap (fun i => get_item_details fetch i)).filter
        (fun d => pyTruthyOpt d.download_url) := by
  induction identifiers with
  | nil => rfl
  | cons i rest ih =>
    simp only [scrapeLoop, List.filterMap_cons]
    cases h : get_item_details fetch i with
    | none => simpa using ih
    | some d =>
      by_cases hd : pyTruthyOpt d.download_url
      · simp [hd, ih, List.filter_cons]
      · simp only [List.filter_cons]
        simp only [Bool.not_eq_true] at hd
        simp [hd, ih]

/-- The nested category loops are a `List.find?` over the keyword
list. -/
theorem findCat_eq (cats subject : List String) :
    findCat cats subject =
      cats.find? (fun cat => subject.any (fun subj => catMatches cat subj)) := by
  induction cats with
  | nil => rfl
  | cons cat rest ih =>
    simp only [findCat, List.find?]
    by_cases h : subject.any (fun subj => catMatches cat subj)
    · simp [h]
    · simp [h, ih]

/-- With an empty subject list no keyword can match. -/
theorem findCat_nil (cats : List String) : findCat cats [] = none := by
  induction cats with
  | nil => rfl
  | cons cat rest ih => simpa [findCat] using ih

/-- The keyword loop only ever returns one of the keywords. -/
theorem findCat_mem (cats subject : List String) (cat : String)
    (h : findCat cats subject = some cat) : cat ∈ cats := by
  induction cats with
  | nil => simp [findCat] at h
  | cons c rest ih =>
    simp only [findCat] at h
    by_cases hc : subject.any (fun subj => catMatches c subj)
    · rw [if_pos hc] at h
      cases h
      exact List.mem_cons_self _ _
    · rw [if_neg hc] at h
      exact List.mem_cons_of_mem c (ih h)

/-- A document without an `identifier` key makes the whole
comprehension raise. -/
theorem collectIdentifiers_eq_none (docs : List SearchDoc) (d : SearchDoc)
    (hd : d ∈ docs) (hnone : d.identifier = none) :
    collectIdentifiers docs = none := by
  induction docs with
  | nil => cases hd
  | cons a rest ih =>
    rcases List.mem_cons.mp hd with rfl | hmem
    · simp [collectIdentifiers, hnone]
    · cases ha : a.identifier with
      | none => simp [collectIdentifiers, ha]
      | some i => simp [collectIdentifiers, ha, ih hmem]

/-- Identifiers whose fetch fails contribute nothing to the loop: the
result is the same as processing only the other identifiers. -/
theorem scrapeLoop_skip (fetch : String → Option MetaResponse)
    (identifiers : List String) (i : String)
    (hfail : get_item_details fetch i = none) :
    scrapeLoop fetch identifiers =
      scrapeLoop fetch (identifiers.filter (fun j => j != i)) := by
  induction identifiers with
  | nil => rfl
  | cons a rest ih =>
    by_cases ha : a = i
    · subst ha
      simp [scrapeLoop, hfail, List.filter_cons, ih]
    · have : (a != i) = true := by simpa using ha
      simp only [List.filter_cons, this, if_pos]
      simp only [scrapeLoop, ih]

/-! ## Claims -/

/-- C1: for every item whose metadata file list contains at least one
file whose name ends in `.zip` (case-insensitively), `get_item_details`
sets `download_url` to the download URL of the first such file in
file-list order — regardless of any `.rar`/`.7z`/`.pbp` files also
present. -/
theorem C1_zip_priority (fetch : String → Option MetaResponse)
    (identifier : String) (resp : MetaResponse) (filename : String)
    (hf : fetch identifier = some resp)
    (hfind : (resp.files.map FileEntry.getName).find? hasZipSuffix
      = some filename) :
    (get_item_details fetch identifier).map ItemData.download_url =
      some (some (dlUrl identifier filename)) := by
  have hz : findFile hasZipSuffix resp.files = some filename := by
    rw [findFile_eq, hfind]
  rw [get_item_details_eq fetch identifier resp hf]
  simp [hz]

/-- Witness for C1: on a file list mixing `.txt`, `.rar`, `.pbp` and two
`.zip` files, the first `.zip` (upper-case `Game.ZIP`) is selected. -/
theorem C1_zip_priority_witness :
    (get_item_details zipFetch "zipitem").map ItemData.download_url =
      some (some (dlUrl "zipitem" "Game.ZIP")) :=
  C1_zip_priority zipFetch "zipitem" zipResp "Game.ZIP" (by decide) (by decide)

/-- C2: when the file list has no `.zip`-suffixed file but some file
ending in `.rar`, `.7z` or `.pbp` (case-insensitively),
`get_item_details` selects the first such file in original file-list
order, under the single combined suffix test. -/
theorem C2_alt_fallback (fetch : String → Option MetaResponse)
    (identifier : String) (resp : MetaResponse) (filename : String)
    (hf : fetch identifier = some resp)
    (hzip : (resp.files.map FileEntry.getName).find? hasZipSuffix = none)
    (hfind : (resp.files.map FileEntry.getName).find? hasAltSuffix
      = some filename) :
    (get_item_details fetch identifier).map ItemData.download_url =
      some (some (dlUrl identifier filename)) := by
  have hz : findFile hasZipSuffix resp.files = none := by
    rw [findFile_eq, hzip]
  have ha : findFile hasAltSuffix resp.files = some filename := by
    rw [findFile_eq, hfind]
  rw [get_item_details_eq fetch identifier resp hf]
  simp [hz, ha]

/-- Witness for C2: with files `[notes.txt, X.PBP, y.rar, z.7z]` the
`.pbp` file is selected because it comes first in list order (no
rar-over-pbp priority). -/
theorem C2_alt_fallback_witness :
    (get_item_details altFetch "altitem").map ItemData.download_url =
      some (some (dlUrl "altitem" "X.PBP")) :=
  C2_alt_fallback altFetch "altitem" altResp "X.PBP" (by decide) (by decide)
    (by decide)

/-- C7: a search-API failure is caught and treated as zero identifiers,
so the pipeline writes a Catalog with zero items. -/
theorem C7_enumeration_soft (fetch : String → Option MetaResponse)
    (scraped_at : String) :
    get_collection_items none = [] ∧
      scrape_all none fetch = [] ∧
      save_to_json (scrape_all none fetch) scraped_at =
        { total_items := 0, scraped_at := scraped_at, items := [] } :=
  ⟨rfl, rfl, rfl⟩

/-- C8: the serialized envelope's `total_items` equals the length of
its `items` list. -/
theorem C8_total_items (data : List ItemData) (scraped_at : String) :
    (save_to_json data scraped_at).total_items =
      (save_to_json data scraped_at).items.length := rfl

/-- C10: one document without an `identifier` field empties the entire
enumeration (the `KeyError` is caught by the same handler as network
failures). -/
theorem C10_missing_identifier (docs : List SearchDoc) (d : SearchDoc)
    (hd : d ∈ docs) (hnone : d.identifier = none) :
    get_collection_items (some docs) = [] := by
  simp [get_collection_items, collectIdentifiers_eq_none docs d hd hnone]

/-- Witness for C10: three documents, the middle one malformed; the
whole enumeration is empty. -/
theorem C10_missing_identifier_witness :
    get_collection_items (some [⟨some "a"⟩, ⟨none⟩, ⟨some "c"⟩]) = [] :=
  C10_missing_identifier [⟨some "a"⟩, ⟨none⟩, ⟨some "c"⟩] ⟨none⟩
    (by decide) rfl

/-- C3: `extract_category` implements exactly the spec's algorithm
(subject normalized to a list, eight keywords scanned as outer loop in
priority order, subject entries as inner loop, case-insensitive
substring match, first-raw-subject fallback, `"Unknown"` default); in
particular subjects `["retro games", "Emulators"]` yield `"Games"`. -/
theorem C3_category_algorithm :
    (∀ m : MetaResponse, extract_category m = extract_category_ofSpec m) ∧
      extract_category retroMeta = "Games" := by
  constructor
  · intro m
    simp only [extract_category, extract_category_ofSpec, findCat_eq]
    cases categories.find?
        (fun cat => (getSubject m).any (fun subj => catMatches cat subj)) with
    | some cat => rfl
    | none =>
      cases getSubject m with
      | nil => rfl
      | cons s rest => rfl
  · decide

/-- Counterexample to C4 as stated: subjects `["Action", "action "]`
with keywords `["Action"]` yield a tag set of size 2, not 1, because
set deduplication is case-sensitive; moreover an entry that is only
whitespace survives as the empty string, because the code drops
entries that are empty before stripping, not after. -/
theorem C4_dedup_counterexample :
    (extract_tags dedupMeta).toFinset.card = 2 ∧
      ¬ (extract_tags dedupMeta).toFinset.card = 1 ∧
      "" ∈ extract_tags wsMeta := by decide

/-- C4 (amended): `extract_tags` unions the normalized subject and
keywords fields, drops entries empty before stripping, strips
whitespace from the rest, and deduplicates via case-sensitive set
semantics (order irrelevant, no duplicates); the example yields a tag
set of size 2. -/
theorem C4_tags_set_semantics :
    (∀ (m : MetaResponse) (t : String),
        t ∈ extract_tags m ↔
          ∃ raw, raw ∈ getSubject m ++ getKeywords m ∧
            raw ≠ "" ∧ pyStrip raw = t) ∧
      (∀ m : MetaResponse, (extract_tags m).Nodup) ∧
      (extract_tags dedupMeta).toFinset.card = 2 := by
  refine ⟨?_, ?_, by decide⟩
  · intro m t
    simp only [extract_tags, List.mem_dedup, List.mem_map, List.mem_filter]
    constructor
    · rintro ⟨raw, ⟨hmem, hne⟩, hstrip⟩
      exact ⟨raw, hmem, by simpa using hne, hstrip⟩
    · rintro ⟨raw, hmem, hne, hstrip⟩
      exact ⟨raw, ⟨hmem, by simpa using hne⟩, hstrip⟩
  · intro m
    simp only [extract_tags]
    exact List.nodup_dedup _

/-- Counterexample to C9 as stated: with subject `"Unknown"` the
function returns `"Unknown"` although the normalized subject list is
non-empty (the literal first subject is returned verbatim). -/
theorem C9_unknown_counterexample :
    extract_category unknownMeta = "Unknown" ∧
      getSubject unknownMeta ≠ [] := by decide

/-- C9 (amended): an empty-string subject yields the empty string, not
`"Unknown"`; and `"Unknown"` is returned exactly when the normalized
subject list is empty, or when no keyword matches and the first raw
subject is itself the literal string `"Unknown"`. -/
theorem C9_empty_subject :
    (∀ (title : Option String) (keywords : Option StrOrList)
        (files : List FileEntry),
        extract_category ⟨some ⟨title, some (.str ""), keywords⟩, files⟩ = "") ∧
      (∀ m : MetaResponse,
        extract_category m = "Unknown" ↔
          (getSubject m = [] ∨
            (findCat categories (getSubject m) = none ∧
              (getSubject m).head? = some "Unknown"))) := by
  constructor
  · intro title keywords files
    have hfc : findCat categories [""] = none := by decide
    simp [extract_category, getSubject, StrOrList.toList, hfc]
  · intro m
    cases hfc : findCat categories (getSubject m) with
    | some cat =>
      have hmem := findCat_mem categories (getSubject m) cat hfc
      have hne : cat ≠ "Unknown" := by
        simp only [categories, List.mem_cons, List.not_mem_nil,
          or_false] at hmem
        rcases hmem with rfl | rfl | rfl | rfl | rfl | rfl | rfl | rfl <;>
          decide
      have hcat : extract_category m = cat := by
        simp [extract_category, hfc]
      rw [hcat]
      constructor
      · intro h
        exact absurd h hne
      · rintro (hs | ⟨hn, _⟩)
        · rw [hs, findCat_nil] at hfc
          exact Option.noConfusion hfc
        · exact Option.noConfusion hn
    | none =>
      cases hs : getSubject m with
      | nil =>
        rw [hs] at hfc
        have hcat : extract_category m = "Unknown" := by
          simp [extract_category, hs, hfc]
        simp [hcat, hs]
      | cons s rest =>
        rw [hs] at hfc
        have hcat : extract_category m = s := by
          simp [extract_category, hs, hfc]
        rw [hcat]
        simp [hs, hfc]

/-- C5: the items produced by `scrape_all` are the per-identifier fetch
results in enumeration order restricted to those with a non-null
`download_url`; every kept record has a non-null `download_url`; and an
identifier none of whose files ends in `.zip`, `.rar`, `.7z` or `.pbp`
never appears in the output. -/
theorem C5_catalog_filter (search : Option (List SearchDoc))
    (fetch : String → Option MetaResponse) (i : String) (resp : MetaResponse)
    (hf : fetch i = some resp)
    (hno : (resp.files.map FileEntry.getName).all
        (fun fn => !(hasZipSuffix fn || hasAltSuffix fn)) = true) :
    scrape_all search fetch =
        ((get_collection_items search).filterMap
          (fun j => get_item_details fetch j)).filter
          (fun d => d.download_url.isSome) ∧
      (scrape_all search fetch).all (fun d => d.download_url.isSome) = true ∧
      i ∉ (scrape_all search fetch).map ItemData.identifier := by
  have hmain : scrape_all search fetch =
      ((get_collection_items search).filterMap
        (fun j => get_item_details fetch j)).filter
        (fun d => d.download_url.isSome) := by
    rw [scrape_all, scrapeLoop_eq]
    apply List.filter_congr
    intro d hd
    rcases List.mem_filterMap.mp hd with ⟨j, _, hjd⟩
    exact get_item_details_truthy fetch j d hjd
  have hall : (scrape_all search fetch).all
      (fun d => d.download_url.isSome) = true := by
    rw [hmain, List.all_eq_true]
    intro d hd
    exact (List.mem_filter.mp hd).2
  refine ⟨hmain, hall, ?_⟩
  intro hmem
  rcases List.mem_map.mp hmem with ⟨d, hd, hdi⟩
  rw [hmain] at hd
  have hdf := List.mem_filter.mp hd
  rcases List.mem_filterMap.mp hdf.1 with ⟨j, _, hjd⟩
  have hdj := get_item_details_identifier fetch j d hjd
  have hji : j = i := by rw [← hdj, hdi]
  rw [hji] at hjd
  have hdzip : findFile hasZipSuffix resp.files = none := by
    rw [findFile_eq]
    refine List.find?_eq_none.mpr ?_
    intro x hx
    have hx' := List.all_eq_true.mp hno x hx
    simp only [Bool.not_eq_true', Bool.or_eq_false_iff] at hx'
    simp [hx'.1]
  have hdalt : findFile hasAltSuffix resp.files = none := by
    rw [findFile_eq]
    refine List.find?_eq_none.mpr ?_
    intro x hx
    have hx' := List.all_eq_true.mp hno x hx
    simp only [Bool.not_eq_true', Bool.or_eq_false_iff] at hx'
    simp [hx'.2]
  rw [get_item_details_eq fetch i resp hf] at hjd
  cases hjd
  simp [hdzip, hdalt] at hdf

/-- Witness for C5: with identifiers `["a", "noext"]`, where `"a"` has
a `.zip` file and `"noext"` only a `.txt` file, the catalog equals the
filtered fetch results, all records carry a download URL, and
`"noext"` is absent. -/
theorem C5_catalog_filter_witness :
    scrape_all search5 fetch5 =
        ((get_collection_items search5).filterMap
          (fun j => get_item_details fetch5 j)).filter
          (fun d => d.download_url.isSome) ∧
      (scrape_all search5 fetch5).all (fun d => d.download_url.isSome) = true ∧
      "noext" ∉ (scrape_all search5 fetch5).map ItemData.identifier :=
  C5_catalog_filter search5 fetch5 "noext" noextResp (by decide) (by decide)

/-- C6: a metadata-fetch failure makes `get_item_details` return no
record for that identifier only, and the loop result is the same as
processing the remaining identifiers. -/
theorem C6_failure_isolated (search : Option (List SearchDoc))
    (fetch : String → Option MetaResponse) (i : String)
    (hfail : fetch i = none) :
    get_item_details fetch i = none ∧
      scrape_all search fetch =
        scrapeLoop fetch ((get_collection_items search).filter
          (fun j => j != i)) := by
  have hgid : get_item_details fetch i = none := by
    simp [get_item_details, hfail]
  exact ⟨hgid, scrapeLoop_skip fetch (get_collection_items search) i hgid⟩

/-- Witness for C6: three identifiers `["a", "b", "c"]`, with the fetch
for `"b"` failing; the two other eligible records still appear. -/
theorem C6_failure_isolated_witness :
    (get_item_details fetch6 "b" = none ∧
      scrape_all search6 fetch6 =
        scrapeLoop fetch6 ((get_collection_items search6).filter
          (fun j => j != "b"))) ∧
      (scrape_all search6 fetch6).map ItemData.identifier = ["a", "c"] :=
  ⟨C6_failure_isolated search6 fetch6 "b" (by decide), by decide⟩

end Scraper
